import Mathlib

/-!
Verification model of the resource-based access-policy evaluator
(`EvaluatePolicy` in package `aws`).  The evaluator's implementation file is
not part of this source snapshot; only its extensive test suite
(`src/aws/evaluate_policy_test.go`) is.  The definitions below are therefore
modelled from the specification's description of the evaluator, and every
behavioural choice is cross-checked against the expected fixtures of the test
suite, which is the code that remains in the repository.

Strings are compared by code points (the test fixtures are pure ASCII, where
this coincides with Go's byte-wise `sort.Strings` order).
-/

deriving instance DecidableEq for Except

namespace EvalPolicy

/-- Numeric code point of a character. -/
def charVal (c : Char) : Nat := c.val.toNat

/-- Code-point lexicographic order on character lists, as a boolean. -/
def lexLe : List Char → List Char → Bool
  | [], _ => true
  | _ :: _, [] => false
  | a :: as, b :: bs =>
    if charVal a < charVal b then true
    else if charVal b < charVal a then false
    else lexLe as bs

/-- Lexicographic (code-point) order on strings, matching the byte-wise order
used by Go's `sort.Strings` on the ASCII data appearing in policies. -/
def strLe (a b : String) : Bool := lexLe a.data b.data

/-- Insert a string into a sorted list, keeping it sorted. -/
def insertStr (x : String) : List String → List String
  | [] => [x]
  | y :: ys => if strLe x y then x :: y :: ys else y :: insertStr x ys

/-- Insertion sort by `strLe`. -/
def insertionSortStr : List String → List String
  | [] => []
  | x :: xs => insertStr x (insertionSortStr xs)

/-- Deduplicate, then sort lexicographically: the normal form used for every
list-valued field of the evaluator's output. -/
def sortUniq (l : List String) : List String := insertionSortStr l.dedup

theorem charVal_eq {x y : Char} (h : charVal x = charVal y) : x = y := by
  apply Char.ext
  apply UInt32.ext
  exact h

theorem lexLe_total (a b : List Char) : lexLe a b = true ∨ lexLe b a = true := by
  induction a generalizing b with
  | nil => left; rfl
  | cons x xs ih =>
    cases b with
    | nil => right; rfl
    | cons y ys =>
      by_cases h1 : charVal x < charVal y
      · left; simp [lexLe, h1]
      · by_cases h2 : charVal y < charVal x
        · right; simp [lexLe, h1, h2]
        · rcases ih ys with h | h
          · left; simp [lexLe, h1, h2, h]
          · right; simp [lexLe, h1, h2, h]

theorem lexLe_antisymm {a b : List Char} (h1 : lexLe a b = true)
    (h2 : lexLe b a = true) : a = b := by
  induction a generalizing b with
  | nil =>
    cases b with
    | nil => rfl
    | cons y ys => simp [lexLe] at h2
  | cons x xs ih =>
    cases b with
    | nil => simp [lexLe] at h1
    | cons y ys =>
      by_cases hxy : charVal x < charVal y
      · simp [lexLe, hxy, Nat.lt_asymm hxy, Nat.ne_of_lt hxy] at h2
      · by_cases hyx : charVal y < charVal x
        · simp [lexLe, hxy, hyx] at h1
        · have hx : x = y := charVal_eq (by omega)
          subst hx
          simp [lexLe, hxy, hyx] at h1 h2
          rw [ih h1 h2]

theorem lexLe_trans {a b c : List Char} (h1 : lexLe a b = true)
    (h2 : lexLe b c = true) : lexLe a c = true := by
  induction a generalizing b c with
  | nil => rfl
  | cons x xs ih =>
    cases b with
    | nil => simp [lexLe] at h1
    | cons y ys =>
      cases c with
      | nil => simp [lexLe] at h2
      | cons z zs =>
        simp only [lexLe] at h1 h2 ⊢
        by_cases hxy : charVal x < charVal y
        · by_cases hyz : charVal y < charVal z
          · have h3 : charVal x < charVal z := by omega
            simp [h3]
          · by_cases hzy : charVal z < charVal y
            · simp [hyz, hzy] at h2
            · have h3 : charVal x < charVal z := by omega
              simp [h3]
        · by_cases hyx : charVal y < charVal x
          · simp [hxy, hyx] at h1
          · have hx : x = y := charVal_eq (by omega)
            subst hx
            simp only [hxy, if_false, lt_irrefl] at h1
            by_cases hxz : charVal x < charVal z
            · simp [hxz]
            · by_cases hzx : charVal z < charVal x
              · simp [hxz, hzx] at h2
              · simp only [hxz, hzx, if_false] at h2 ⊢
                exact ih h1 h2

theorem strLe_total (a b : String) : strLe a b = true ∨ strLe b a = true :=
  lexLe_total a.data b.data

theorem strLe_antisymm {a b : String} (h1 : strLe a b = true)
    (h2 : strLe b a = true) : a = b := by
  have h := lexLe_antisymm h1 h2
  cases a
  cases b
  exact congrArg String.mk h

theorem strLe_trans {a b c : String} (h1 : strLe a b = true)
    (h2 : strLe b c = true) : strLe a c = true :=
  lexLe_trans h1 h2

/-- The propositional form of `strLe`, used to state sortedness. -/
def StrLeProp (a b : String) : Prop := strLe a b = true

instance : IsTrans String StrLeProp := ⟨fun _ _ _ => strLe_trans⟩

instance : IsAntisymm String StrLeProp := ⟨fun _ _ => strLe_antisymm⟩

instance : IsTotal String StrLeProp := ⟨fun a b => strLe_total a b⟩

theorem insertStr_perm (x : String) (l : List String) :
    List.Perm (insertStr x l) (x :: l) := by
  induction l with
  | nil => simp [insertStr]
  | cons y ys ih =>
    by_cases h : strLe x y = true
    · simp [insertStr, h]
    · simp only [insertStr, h, if_false]
      exact ((ih.cons y).trans (List.Perm.swap x y ys))

theorem insertionSortStr_perm (l : List String) :
    List.Perm (insertionSortStr l) l := by
  induction l with
  | nil => simp [insertionSortStr]
  | cons x xs ih =>
    exact (insertStr_perm x (insertionSortStr xs)).trans (ih.cons x)

theorem sorted_insertStr {x : String} {l : List String}
    (h : l.Sorted StrLeProp) : (insertStr x l).Sorted StrLeProp := by
  induction l with
  | nil => simp [insertStr, List.Sorted]
  | cons y ys ih =>
    by_cases hxy : strLe x y = true
    · simp only [insertStr, hxy, if_true]
      refine List.sorted_cons.mpr ⟨?_, h⟩
      intro b hb
      rcases List.mem_cons.mp hb with hb1 | hb1
      · subst hb1; exact hxy
      · exact strLe_trans hxy (List.rel_of_sorted_cons h b hb1)
    · simp only [insertStr, hxy, if_false]
      have hyx : strLe y x = true := by
        rcases strLe_total x y with h' | h'
        · exact absurd h' hxy
        · exact h'
      have hys : ys.Sorted StrLeProp := List.sorted_cons.mp h |>.2
      refine List.sorted_cons.mpr ⟨?_, ih hys⟩
      intro b hb
      have hb2 := (insertStr_perm x ys).mem_iff.mp hb
      rcases List.mem_cons.mp hb2 with hb3 | hb3
      · subst hb3; exact hyx
      · exact List.rel_of_sorted_cons h b hb3

theorem sorted_insertionSortStr (l : List String) :
    (insertionSortStr l).Sorted StrLeProp := by
  induction l with
  | nil => simp [insertionSortStr, List.Sorted]
  | cons x xs ih => exact sorted_insertStr ih

theorem sortUniq_perm_dedup (l : List String) :
    List.Perm (sortUniq l) l.dedup :=
  insertionSortStr_perm l.dedup

theorem sortUniq_sorted (l : List String) : (sortUniq l).Sorted StrLeProp :=
  sorted_insertionSortStr l.dedup

theorem sortUniq_nodup (l : List String) : (sortUniq l).Nodup :=
  ((sortUniq_perm_dedup l).nodup_iff).mpr (List.nodup_dedup l)

theorem sortUniq_eq_of_perm {l₁ l₂ : List String} (h : List.Perm l₁ l₂) :
    sortUniq l₁ = sortUniq l₂ := by
  apply List.eq_of_perm_of_sorted (r := StrLeProp)
  · exact (sortUniq_perm_dedup l₁).trans (h.dedup.trans (sortUniq_perm_dedup l₂).symm)
  · exact sortUniq_sorted l₁
  · exact sortUniq_sorted l₂

theorem insertStr_of_le {x y : String} {ys : List String}
    (h : strLe x y = true) : insertStr x (y :: ys) = x :: y :: ys := by
  simp [insertStr, h]

theorem insertionSortStr_eq_of_sorted {l : List String}
    (h : l.Sorted StrLeProp) : insertionSortStr l = l := by
  induction l with
  | nil => rfl
  | cons x xs ih =>
    have hxs : xs.Sorted StrLeProp := List.sorted_cons.mp h |>.2
    rw [insertionSortStr, ih hxs]
    cases xs with
    | nil => rfl
    | cons y ys => exact insertStr_of_le (List.rel_of_sorted_cons h y (by simp))

theorem sortUniq_eq_of_sorted_nodup {l : List String}
    (hs : l.Sorted StrLeProp) (hn : l.Nodup) : sortUniq l = l := by
  unfold sortUniq
  rw [List.dedup_eq_self.mpr hn]
  exact insertionSortStr_eq_of_sorted hs

theorem sortUniq_idem (l : List String) : sortUniq (sortUniq l) = sortUniq l :=
  sortUniq_eq_of_sorted_nodup (sortUniq_sorted l) (sortUniq_nodup l)

/-- Modelled from the spec: the `Principal` clause of a statement after
canonicalisation, either a bare scalar string (such as `"*"` or an account
id) or an object keyed by `AWS` / `Federated` / `Service`, each value list
already normalised from scalar-or-array JSON form. -/
inductive Principal where
  | scalar (s : String)
  | obj (aws federated service : List String)
deriving DecidableEq

/-- Modelled from the spec: one operator block of a `Condition` element,
mapping condition-key names to their (list-normalised) values. -/
structure CondEntry where
  op : String
  kvs : List (String × List String)
deriving DecidableEq

/-- Modelled from the spec: a policy statement after canonicalisation of
scalar fields into lists.  `Resource` is carried but never interpreted. -/
structure Statement where
  Sid : Option String := none
  Effect : String
  Principal : Option Principal := none
  Action : Option (List String) := none
  Resource : Option (List String) := none
  Condition : List CondEntry := []
deriving DecidableEq

/-- Modelled from the spec: a parsed policy document. -/
structure PolicyDocument where
  Version : String := "2012-10-17"
  Statement : List Statement := []
deriving DecidableEq

/-- The evaluator's output structure, with the field names of the Go
`EvaluatedPolicy` struct exercised by the test suite. -/
structure EvaluatedPolicy where
  AccessLevel : String
  AllowedOrganizationIds : List String
  AllowedPrincipals : List String
  AllowedPrincipalAccountIds : List String
  AllowedPrincipalFederatedIdentities : List String
  AllowedPrincipalServices : List String
  IsPublic : Bool
  PublicAccessLevels : List String
  SharedAccessLevels : List String
  PrivateAccessLevels : List String
  PublicStatementIds : List String
  SharedStatementIds : List String
deriving DecidableEq

/-- The terminal validation errors of the evaluator. -/
inductive PolicyError where
  | invalidSourceAccountId (id : String)
  | invalidEffect
  | duplicateSid (sid : String)
  | invalidPrincipal (value : String)
deriving DecidableEq

/-- The error strings observed by the test suite for each error kind. -/
def errorMessage : PolicyError → String
  | .invalidSourceAccountId i => "source account id is invalid: " ++ i
  | .invalidEffect => "element Effect is invalid - valid choices are 'Allow' or 'Deny'"
  | .duplicateSid s => "duplicate Sid found: " ++ s
  | .invalidPrincipal v => "unabled to parse arn or account: " ++ v

/-- A valid source/owner account id: exactly 12 ASCII digits. -/
def isValidAccountId (s : String) : Bool :=
  s.length == 12 && s.data.all Char.isDigit

/-- Split a character list on a separator character. -/
def splitChars (sep : Char) : List Char → List (List Char)
  | [] => [[]]
  | x :: xs =>
    match splitChars sep xs with
    | [] => [[]]
    | g :: gs => if x == sep then [] :: g :: gs else (x :: g) :: gs

/-- Split a string on `':'`, the ARN field separator. -/
def splitColon (s : String) : List String :=
  (splitChars ':' s.data).map String.mk

/-- A resolved identity reference.  `account lit acct` carries the literal
string from the policy plus its canonical account id (`"*"` for the
wildcard-all identity). -/
inductive Identity where
  | account (lit acct : String)
  | service (s : String)
  | federated (s : String)
  | org (o : String)
deriving DecidableEq

/-- Modelled from the spec: parse an `AWS`-keyed (or bare scalar) principal
value as `*`, a 12-digit account id, or a recognised IAM/STS ARN shape;
anything else is the hard `InvalidPrincipal` failure. -/
def parseAwsPrincipal (v : String) : Except PolicyError Identity :=
  if v == "*" then .ok (.account "*" "*")
  else if isValidAccountId v then .ok (.account v v)
  else
    match splitColon v with
    | ["arn", "aws", "iam", "", acct, res] =>
      if isValidAccountId acct &&
          (res == "root" || "role/".data.isPrefixOf res.data ||
            "user/".data.isPrefixOf res.data) then
        .ok (.account v acct)
      else .error (.invalidPrincipal v)
    | ["arn", "aws", "sts", "", acct, res] =>
      if isValidAccountId acct && "assumed-role/".data.isPrefixOf res.data then
        .ok (.account v acct)
      else .error (.invalidPrincipal v)
    | _ => .error (.invalidPrincipal v)

/-- Sequence a fallible function over a list, stopping at the first error. -/
def mapExcept (f : α → Except ε β) : List α → Except ε (List β)
  | [] => .ok []
  | a :: as =>
    match f a with
    | .error e => .error e
    | .ok b =>
      match mapExcept f as with
      | .error e => .error e
      | .ok bs => .ok (b :: bs)

/-- The `*Like` condition-operator family. -/
def isLikeOp (op : String) : Bool :=
  op == "StringLike" || op == "StringLikeIfExists" ||
    op == "ArnLike" || op == "ArnLikeIfExists"

/-- The `*Equals` condition-operator family (including `IgnoreCase` and
`IfExists` variants). -/
def isEqualsOp (op : String) : Bool :=
  op == "StringEquals" || op == "StringEqualsIfExists" ||
    op == "StringEqualsIgnoreCase" || op == "StringEqualsIgnoreCaseIfExists" ||
    op == "ArnEquals" || op == "ArnEqualsIfExists"

/-- Whether a string contains a glob wildcard character. -/
def hasWildcardChar (s : String) : Bool :=
  s.data.any (fun c => c == '*' || c == '?')

/-- Modelled from the spec: identity contributed by an `aws:SourceArn` or
`aws:PrincipalArn` condition value.  Under `*Like` operators a bare `*`
contributes the wildcard-all identity, and a wildcard-consistent account
segment is tolerated; under `*Equals` operators any wildcard makes the value
contribute nothing (silently). -/
def arnConditionIdentity (like : Bool) (v : String) : Option Identity :=
  if like then
    if v == "*" then some (.account "*" "*")
    else
      match splitColon v with
      | ["arn", "aws", _, "", acct, _] =>
        if isValidAccountId acct then some (.account v acct)
        else if acct == "*" || (acct.length == 12 && acct.data.all (fun c => c == '?')) then
          some (.account v "*")
        else none
      | _ => none
  else
    if hasWildcardChar v then none
    else
      match splitColon v with
      | ["arn", "aws", _, "", acct, _] =>
        if isValidAccountId acct then some (.account v acct) else none
      | _ => none

/-- Modelled from the spec: identity contributed by an `aws:SourceAccount` or
`aws:PrincipalAccount` condition value (a bare account id, not an ARN). -/
def accountConditionIdentity (like : Bool) (v : String) : Option Identity :=
  if like then
    if v == "*" then some (.account "*" "*")
    else if isValidAccountId v then some (.account v v)
    else if v.length == 12 && v.data.all (fun c => c == '?') then
      some (.account v "*")
    else none
  else if isValidAccountId v then some (.account v v) else none

/-- Whether a string starts with the organisation-id marker `o-`. -/
def isOrgShaped (v : String) : Bool :=
  match v.data with
  | 'o' :: '-' :: _ => true
  | _ => false

/-- Modelled from the spec: acceptance of an `aws:PrincipalOrgID` condition
value.  `*Equals` operators accept exactly the wildcard-free `o-...` values;
`*Like` operators additionally accept wildcarded `o-...` patterns and
normalise a bare `*` to the organisation wildcard `o-*`. -/
def orgAccept (like : Bool) (v : String) : Option String :=
  if like then
    if v == "*" then some "o-*"
    else if isOrgShaped v then some v
    else none
  else if isOrgShaped v && !hasWildcardChar v then some v else none

/-- Modelled from the spec: the identity (if any) contributed by one value of
one condition key under one operator.  Unsupported operators and malformed
values contribute nothing, silently. -/
def condIdentity (op key v : String) : Option Identity :=
  if isLikeOp op || isEqualsOp op then
    if key == "aws:SourceArn" || key == "aws:PrincipalArn" then
      arnConditionIdentity (isLikeOp op) v
    else if key == "aws:SourceAccount" || key == "aws:PrincipalAccount" then
      accountConditionIdentity (isLikeOp op) v
    else if key == "aws:PrincipalOrgID" then
      (orgAccept (isLikeOp op) v).map .org
    else none
  else none

/-- All identities contributed by a statement's `Condition` element. -/
def conditionIdentities (conds : List CondEntry) : List Identity :=
  (conds.map (fun e =>
    (e.kvs.map (fun kv => kv.2.filterMap (condIdentity e.op kv.1))).flatten)).flatten

/-- Modelled from the spec: identities of a `Principal` clause.  A bare
scalar is parsed with the same grammar as an `AWS`-keyed value; `Federated`
and `Service` values are opaque. -/
def principalIdsOf : Option Principal → Except PolicyError (List Identity)
  | none => .ok []
  | some (.scalar v) =>
    match parseAwsPrincipal v with
    | .error e => .error e
    | .ok i => .ok [i]
  | some (.obj aws fed svc) =>
    match mapExcept parseAwsPrincipal aws with
    | .error e => .error e
    | .ok awsIds => .ok (awsIds ++ fed.map .federated ++ svc.map .service)

/-- All identities resolved for one statement: direct principal clause plus
global-condition-key contributions. -/
def statementIdentities (s : Statement) : Except PolicyError (List Identity) :=
  match principalIdsOf s.Principal with
  | .error e => .error e
  | .ok pids => .ok (pids ++ conditionIdentities s.Condition)

/-- Access class of an identity relative to the owner account. -/
def identityClass (owner : String) : Identity → String
  | .account _ acct =>
    if acct == "*" then "public"
    else if acct == owner then "private"
    else "shared"
  | .service _ => "public"
  | .federated _ => "private"
  | .org o => if o == "o-*" then "public" else "shared"

/-- The literal principal string an identity contributes to
`AllowedPrincipals`, when it is an account-flavoured identity. -/
def identityLiteral : Identity → Option String
  | .account lit _ => some lit
  | _ => none

/-- The canonical account id an identity contributes to
`AllowedPrincipalAccountIds`. -/
def identityAccountId : Identity → Option String
  | .account _ acct => some acct
  | _ => none

/-- Fuel-indexed glob matcher over character lists, supporting `*` (zero or
more characters) and `?` (exactly one character).  The fuel is a strict bound
on pattern length plus target length, so `globMatch` below never exhausts it. -/
def globAux : Nat → List Char → List Char → Bool
  | 0, _, _ => false
  | _ + 1, [], t => t.isEmpty
  | fuel + 1, p :: ps, t =>
    if p == '*' then
      globAux fuel ps t ||
        (match t with
         | [] => false
         | _ :: cs => globAux fuel (p :: ps) cs)
    else
      match t with
      | [] => false
      | c :: cs => (p == '?' || p == c) && globAux fuel ps cs

/-- Glob-style match of a pattern against a full `service:ApiName` string. -/
def globMatch (pattern target : String) : Bool :=
  globAux (pattern.length + target.length + 1) pattern.data target.data

/-- Modelled from the spec: a representative slice of the static catalog
mapping `service:ApiName` to its access-level tag.  Per the spec's fixtures,
EC2 has entries in all five categories, `ec2:Describe*` names cover exactly
the `List` and `Read` categories, and `sts:AssumeRole` is a `Write` action. -/
def awsActionAccessLevels : List (String × String) :=
  [("ec2:DescribeVolumes", "List"),
   ("ec2:DescribeInstances", "List"),
   ("ec2:DescribeInstanceAttribute", "Read"),
   ("ec2:GetConsoleOutput", "Read"),
   ("ec2:RunInstances", "Write"),
   ("ec2:StartInstances", "Write"),
   ("ec2:CreateTags", "Tagging"),
   ("ec2:ModifySnapshotAttribute", "Permissions management"),
   ("sts:AssumeRole", "Write")]

/-- Access-level tags granted by a statement's `Action` strings: the sorted,
deduplicated tags of every catalog entry matched by some action pattern. -/
def actionAccessLevels (acts : List String) : List String :=
  sortUniq (awsActionAccessLevels.filterMap (fun entry =>
    if acts.any (fun a => globMatch a entry.1) then some entry.2 else none))

/-- Positional display identifier of a statement: its `Sid` when present,
else `Statement[<1-based index>]`. -/
def stmtDisplaySid (idx : Nat) (s : Statement) : String :=
  match s.Sid with
  | some sid => sid
  | none => "Statement[" ++ toString (idx + 1) ++ "]"

/-- Everything the aggregator needs to know about one resolved Allow
statement. -/
structure StmtSummary where
  principals : List String
  accountIds : List String
  federated : List String
  services : List String
  orgs : List String
  hasPub : Bool
  hasShr : Bool
  hasPriv : Bool
  sid : String
  levels : List String
deriving DecidableEq

/-- Classify and project the identities of one Allow statement. -/
def summarize (owner : String) (idx : Nat) (s : Statement)
    (ids : List Identity) : StmtSummary :=
  { principals := ids.filterMap identityLiteral
    accountIds := ids.filterMap identityAccountId
    federated := ids.filterMap (fun i => match i with
      | .federated f => some f
      | _ => none)
    services := ids.filterMap (fun i => match i with
      | .service v => some v
      | _ => none)
    orgs := ids.filterMap (fun i => match i with
      | .org o => some o
      | _ => none)
    hasPub := ids.any (fun i => identityClass owner i == "public")
    hasShr := ids.any (fun i => identityClass owner i == "shared")
    hasPriv := ids.any (fun i => identityClass owner i == "private")
    sid := stmtDisplaySid idx s
    levels := actionAccessLevels (s.Action.getD []) }

/-- Modelled from the spec: principal literals gathered from a `Deny`
statement, used only to suppress later Allow grants (scenario D of §8:
a Deny of `*` makes the whole policy evaluate as fully empty/private). -/
def denyLiterals (s : Statement) : List String :=
  if s.Effect == "Deny" then
    match s.Principal with
    | some (.scalar v) => [v]
    | some (.obj aws _ _) => aws
    | none => []
  else []

/-- Resolve the statements of a policy into per-statement summaries.  Deny
statements resolve to nothing; when some Deny statement carries the wildcard
principal (`denyAll`), every Allow statement is suppressed entirely;
otherwise individual identities whose literal is explicitly denied are
dropped. -/
def resolveStatements (owner : String) (denyAll : Bool) (denied : List String) :
    Nat → List Statement → Except PolicyError (List StmtSummary)
  | _, [] => .ok []
  | idx, s :: rest =>
    if s.Effect == "Allow" && !denyAll then
      match statementIdentities s with
      | .error e => .error e
      | .ok ids =>
        match resolveStatements owner denyAll denied (idx + 1) rest with
        | .error e => .error e
        | .ok tail =>
          .ok (summarize owner idx s
            (ids.filter (fun i =>
              !(denied.contains ((identityLiteral i).getD "")))) :: tail)
    else resolveStatements owner denyAll denied (idx + 1) rest

/-- The all-empty, `private` evaluation result. -/
def emptyEvaluated : EvaluatedPolicy :=
  { AccessLevel := "private"
    AllowedOrganizationIds := []
    AllowedPrincipals := []
    AllowedPrincipalAccountIds := []
    AllowedPrincipalFederatedIdentities := []
    AllowedPrincipalServices := []
    IsPublic := false
    PublicAccessLevels := []
    SharedAccessLevels := []
    PrivateAccessLevels := []
    PublicStatementIds := []
    SharedStatementIds := [] }

/-- Merge the per-statement summaries into the final output: deduplicated,
lexicographically sorted identity and level lists, precedence-ordered access
level, and the statement-id lists of public and shared grants. -/
def aggregate (ss : List StmtSummary) : EvaluatedPolicy :=
  { AccessLevel :=
      if ss.any (·.hasPub) then "public"
      else if ss.any (·.hasShr) then "shared"
      else "private"
    AllowedOrganizationIds := sortUniq (ss.map (·.orgs)).flatten
    AllowedPrincipals := sortUniq (ss.map (·.principals)).flatten
    AllowedPrincipalAccountIds := sortUniq (ss.map (·.accountIds)).flatten
    AllowedPrincipalFederatedIdentities := sortUniq (ss.map (·.federated)).flatten
    AllowedPrincipalServices := sortUniq (ss.map (·.services)).flatten
    IsPublic := ss.any (·.hasPub)
    PublicAccessLevels := sortUniq ((ss.filter (·.hasPub)).map (·.levels)).flatten
    SharedAccessLevels := sortUniq ((ss.filter (·.hasShr)).map (·.levels)).flatten
    PrivateAccessLevels := sortUniq ((ss.filter (·.hasPriv)).map (·.levels)).flatten
    PublicStatementIds := sortUniq ((ss.filter (·.hasPub)).map (·.sid))
    SharedStatementIds := sortUniq ((ss.filter (·.hasShr)).map (·.sid)) }

/-- First statement whose `Effect` is neither `Allow` nor `Deny` (exact,
case-sensitive match) is a hard validation error. -/
def validateEffects : List Statement → Except PolicyError Unit
  | [] => .ok ()
  | s :: rest =>
    if s.Effect == "Allow" || s.Effect == "Deny" then validateEffects rest
    else .error .invalidEffect

/-- Reject the first explicit `Sid` that repeats an earlier one. -/
def validateSids (seen : List String) : List Statement → Except PolicyError Unit
  | [] => .ok ()
  | s :: rest =>
    match s.Sid with
    | none => validateSids seen rest
    | some sid =>
      if seen.contains sid then .error (.duplicateSid sid)
      else validateSids (sid :: seen) rest

/-- Modelled from the spec: the policy evaluator.  It validates the owner
account id first, then statement `Effect`s, then `Sid` uniqueness, then
resolves each Allow statement's identities (subject to Deny suppression) and
aggregates them into the final `EvaluatedPolicy`. -/
def EvaluatePolicy (p : PolicyDocument) (ownerAccountId : String) :
    Except PolicyError EvaluatedPolicy :=
  if !(isValidAccountId ownerAccountId) then
    .error (.invalidSourceAccountId ownerAccountId)
  else
    match validateEffects p.Statement with
    | .error e => .error e
    | .ok _ =>
      match validateSids [] p.Statement with
      | .error e => .error e
      | .ok _ =>
        let denied := (p.Statement.map denyLiterals).flatten
        match resolveStatements ownerAccountId (denied.contains "*") denied 0
            p.Statement with
        | .error e => .error e
        | .ok ss => .ok (aggregate ss)

theorem sortUniq_nil : sortUniq [] = [] := rfl

theorem sortUniq_singleton (x : String) : sortUniq [x] = [x] := rfl

theorem contains_eq_of_perm {l l' : List String} (h : l.Perm l') (a : String) :
    l.contains a = l'.contains a := by
  rw [Bool.eq_iff_iff]
  simp only [List.elem_iff]
  exact h.mem_iff

theorem any_eq_of_perm {α : Type} {l l' : List α} (p : α → Bool) (h : l.Perm l') :
    l.any p = l'.any p := by
  rw [Bool.eq_iff_iff]
  simp only [List.any_eq_true]
  constructor
  · rintro ⟨x, hx, hp⟩
    exact ⟨x, h.mem_iff.mp hx, hp⟩
  · rintro ⟨x, hx, hp⟩
    exact ⟨x, h.mem_iff.mpr hx, hp⟩

theorem not_star_of_valid {a : String} (ha : isValidAccountId a = true) :
    (a == "*") = false := by
  cases h : a == "*"
  · rfl
  · exact absurd ((beq_iff_eq.mp h) ▸ ha) (by decide)

theorem parseAwsPrincipal_valid {a : String} (ha : isValidAccountId a = true) :
    parseAwsPrincipal a = .ok (.account a a) := by
  unfold parseAwsPrincipal
  rw [not_star_of_valid ha, ha]
  simp

theorem identityClass_account {a o : String} (ha : isValidAccountId a = true) :
    identityClass o (.account a a) =
      if a == o then "private" else "shared" := by
  simp [identityClass, not_star_of_valid ha]

theorem sortUniq_actionAccessLevels (acts : List String) :
    sortUniq (actionAccessLevels acts) = actionAccessLevels acts := by
  unfold actionAccessLevels
  exact sortUniq_idem _

/-- Aggregation of a single statement summary, spelt out field by field. -/
theorem aggregate_single (t : StmtSummary) :
    aggregate [t] =
      { AccessLevel :=
          if t.hasPub then "public" else if t.hasShr then "shared" else "private"
        AllowedOrganizationIds := sortUniq t.orgs
        AllowedPrincipals := sortUniq t.principals
        AllowedPrincipalAccountIds := sortUniq t.accountIds
        AllowedPrincipalFederatedIdentities := sortUniq t.federated
        AllowedPrincipalServices := sortUniq t.services
        IsPublic := t.hasPub
        PublicAccessLevels := if t.hasPub then sortUniq t.levels else []
        SharedAccessLevels := if t.hasShr then sortUniq t.levels else []
        PrivateAccessLevels := if t.hasPriv then sortUniq t.levels else []
        PublicStatementIds := if t.hasPub then [t.sid] else []
        SharedStatementIds := if t.hasShr then [t.sid] else [] } := by
  unfold aggregate
  cases hp : t.hasPub <;> cases hs : t.hasShr <;> cases hv : t.hasPriv <;>
    simp [hp, hs, hv, sortUniq_singleton, sortUniq_nil]

/-- Evaluation of a one-statement Allow policy, reduced to the aggregation of
that statement's summary. -/
theorem evaluate_single {ver : String} {s : Statement} {o : String}
    (ho : isValidAccountId o = true) (heff : s.Effect = "Allow")
    {ids : List Identity} (hids : statementIdentities s = .ok ids) :
    EvaluatePolicy ⟨ver, [s]⟩ o = .ok (aggregate [summarize o 0 s ids]) := by
  have heffb : (s.Effect == "Allow") = true := by rw [heff]; rfl
  have hdl : denyLiterals s = [] := by
    unfold denyLiterals
    rw [heff]
    simp
  have hve : validateEffects [s] = .ok () := by
    unfold validateEffects
    rw [heffb]
    simp [validateEffects]
  have hvs : validateSids [] [s] = .ok () := by
    cases hsid : s.Sid <;> simp [validateSids, hsid, List.contains]
  have hres : resolveStatements o false [] 0 [s] = .ok [summarize o 0 s ids] := by
    unfold resolveStatements
    rw [heffb, hids]
    simp [resolveStatements, List.contains]
  have hc : (([] : List String).contains "*") = false := rfl
  unfold EvaluatePolicy
  rw [ho]
  simp only [Bool.not_true, Bool.false_eq_true, if_false, List.map_cons,
    List.map_nil, hdl, List.flatten_cons, List.flatten_nil, List.nil_append,
    hc, hve, hvs, hres]

/-- A single-statement Allow policy whose Principal is the bare scalar
string `"*"` (claim C1's scenario). -/
def bareStarStatement (sid : Option String) (act res : Option (List String)) :
    Statement :=
  { Sid := sid, Effect := "Allow", Principal := some (.scalar "*"),
    Action := act, Resource := res, Condition := [] }

/-- C1, counterexample: on the exact fixture of
`testWhenAwsPrincipalIsWildcarded` (single Allow statement, bare scalar
Principal `"*"`, Action `sts:AssumeRole`, owner `012345678901`) the evaluator
returns AllowedPrincipals `["*"]` — the bare scalar form DOES append `"*"`,
contrary to the claim. -/
theorem c1_counterexample :
    (EvaluatePolicy
        ⟨"2012-10-17", [bareStarStatement none (some ["sts:AssumeRole"]) none]⟩
        "012345678901").map (·.AllowedPrincipals) = .ok ["*"] ∧
      (EvaluatePolicy
        ⟨"2012-10-17", [bareStarStatement none (some ["sts:AssumeRole"]) none]⟩
        "012345678901").map (·.AllowedPrincipalAccountIds) = .ok ["*"] ∧
      (Except.ok ["*"] : Except PolicyError (List String)) ≠ .ok [] := by
  decide

/-- C1 (amended): for every policy with a single Allow statement whose
Principal is the bare scalar `"*"`, evaluated under a valid 12-digit owner
account id, the result is AccessLevel `public`, IsPublic true, the
statement's identifier is recorded in PublicStatementIds, and `"*"` IS
appended to both AllowedPrincipals and AllowedPrincipalAccountIds (the bare
scalar behaves exactly like the `{"AWS": "*"}` form). -/
theorem c1_thm (ver : String) (sid : Option String)
    (act res : Option (List String)) (o : String)
    (ho : isValidAccountId o = true) :
    EvaluatePolicy ⟨ver, [bareStarStatement sid act res]⟩ o =
      .ok { AccessLevel := "public"
            AllowedOrganizationIds := []
            AllowedPrincipals := ["*"]
            AllowedPrincipalAccountIds := ["*"]
            AllowedPrincipalFederatedIdentities := []
            AllowedPrincipalServices := []
            IsPublic := true
            PublicAccessLevels := actionAccessLevels (act.getD [])
            SharedAccessLevels := []
            PrivateAccessLevels := []
            PublicStatementIds := [stmtDisplaySid 0 (bareStarStatement sid act res)]
            SharedStatementIds := [] } := by
  have hids : statementIdentities (bareStarStatement sid act res) =
      .ok [.account "*" "*"] := rfl
  rw [evaluate_single ho rfl hids, aggregate_single]
  simp [summarize, bareStarStatement, identityClass, sortUniq_singleton,
    sortUniq_nil, sortUniq_actionAccessLevels, identityLiteral, identityAccountId,
    stmtDisplaySid]

/-- C1, witness: the amended theorem applied to the concrete fixture of
`testWhenAwsPrincipalIsWildcarded`. -/
theorem c1_witness :
    isValidAccountId "012345678901" = true ∧
      EvaluatePolicy
          ⟨"2012-10-17", [bareStarStatement none (some ["sts:AssumeRole"]) none]⟩
          "012345678901" =
        .ok { AccessLevel := "public"
              AllowedOrganizationIds := []
              AllowedPrincipals := ["*"]
              AllowedPrincipalAccountIds := ["*"]
              AllowedPrincipalFederatedIdentities := []
              AllowedPrincipalServices := []
              IsPublic := true
              PublicAccessLevels :=
                actionAccessLevels ((some ["sts:AssumeRole"]).getD [])
              SharedAccessLevels := []
              PrivateAccessLevels := []
              PublicStatementIds :=
                [stmtDisplaySid 0 (bareStarStatement none (some ["sts:AssumeRole"]) none)]
              SharedStatementIds := [] } :=
  ⟨by decide, c1_thm "2012-10-17" none (some ["sts:AssumeRole"]) none
    "012345678901" (by decide)⟩

/-- The single-statement policy of claim C2: Effect Allow, Principal
`{"AWS": "*"}`, and no Action field. -/
def awsStarStatement : Statement :=
  { Effect := "Allow", Principal := some (.obj ["*"] [] []) }

/-- C2, counterexample: on the exact fixture of
`testUnknownSidInASingleStatementThatAllowsPublicAccess` (single Allow
statement with Principal `{"AWS": "*"}` and no Action), PublicAccessLevels is
empty — not `["Write"]` as the claim asserts. -/
theorem c2_counterexample :
    (EvaluatePolicy ⟨"2012-10-17", [awsStarStatement]⟩
        "012345678901").map (·.PublicAccessLevels) = .ok [] ∧
      (Except.ok [] : Except PolicyError (List String)) ≠ .ok ["Write"] := by
  decide

/-- C2 (amended): the single-statement policy with Effect Allow, Principal
`{"AWS": "*"}` and no Action, under any valid owner account id, evaluates to
AccessLevel `public`, IsPublic true, AllowedPrincipals `["*"]`,
AllowedPrincipalAccountIds `["*"]`, PublicStatementIds `["Statement[1]"]`,
and EMPTY PublicAccessLevels (an absent Action contributes no access
levels). -/
theorem c2_thm (ver : String) (o : String)
    (ho : isValidAccountId o = true) :
    EvaluatePolicy ⟨ver, [awsStarStatement]⟩ o =
      .ok { AccessLevel := "public"
            AllowedOrganizationIds := []
            AllowedPrincipals := ["*"]
            AllowedPrincipalAccountIds := ["*"]
            AllowedPrincipalFederatedIdentities := []
            AllowedPrincipalServices := []
            IsPublic := true
            PublicAccessLevels := []
            SharedAccessLevels := []
            PrivateAccessLevels := []
            PublicStatementIds := ["Statement[1]"]
            SharedStatementIds := [] } := by
  have hids : statementIdentities awsStarStatement =
      .ok [.account "*" "*"] := rfl
  rw [evaluate_single ho rfl hids, aggregate_single]
  simp [summarize, awsStarStatement, identityClass, sortUniq_singleton,
    sortUniq_nil, identityLiteral, identityAccountId, stmtDisplaySid]
  decide

/-- C2, witness: the amended theorem at the fixture's owner account id. -/
theorem c2_witness :
    isValidAccountId "012345678901" = true ∧
      EvaluatePolicy ⟨"2012-10-17", [awsStarStatement]⟩ "012345678901" =
        .ok { AccessLevel := "public"
              AllowedOrganizationIds := []
              AllowedPrincipals := ["*"]
              AllowedPrincipalAccountIds := ["*"]
              AllowedPrincipalFederatedIdentities := []
              AllowedPrincipalServices := []
              IsPublic := true
              PublicAccessLevels := []
              SharedAccessLevels := []
              PrivateAccessLevels := []
              PublicStatementIds := ["Statement[1]"]
              SharedStatementIds := [] } :=
  ⟨by decide, c2_thm "2012-10-17" "012345678901" (by decide)⟩

/-- C3: the two-statement policy — a Deny with bare Principal `"*"` followed
by an Allow whose Principal is the owner's own account id — evaluates to the
fully empty, `private` result: the Deny wildcard suppresses the Allow
statement's contribution entirely, for any actions and any valid owner. -/
theorem c3_thm (ver : String) (a1 a2 : Option (List String)) (o : String)
    (ho : isValidAccountId o = true) :
    EvaluatePolicy
        ⟨ver, [{ Effect := "Deny", Principal := some (.scalar "*"), Action := a1 },
               { Effect := "Allow", Principal := some (.scalar o), Action := a2 }]⟩
        o = .ok emptyEvaluated := by
  unfold EvaluatePolicy
  rw [ho]
  simp only [Bool.not_true, Bool.false_eq_true, if_false]
  rfl

/-- C3, witness: the theorem at the fixture of
`testWhenAwsPrincipalIsWildcardedDeniedButAnotherAccountIsAllowed`. -/
theorem c3_witness :
    isValidAccountId "012345678901" = true ∧
      EvaluatePolicy
          ⟨"2012-10-17",
           [{ Effect := "Deny", Principal := some (.scalar "*"),
              Action := some ["sts:AssumeRole"] },
            { Effect := "Allow", Principal := some (.scalar "012345678901"),
              Action := some ["sts:AssumeRole"] }]⟩
          "012345678901" = .ok emptyEvaluated :=
  ⟨by decide, c3_thm "2012-10-17" (some ["sts:AssumeRole"])
    (some ["sts:AssumeRole"]) "012345678901" (by decide)⟩

/-- A single Allow statement with no Principal whose only identity source is
a condition on `aws:SourceArn` with the bare value `"*"` (claim C4). -/
def srcArnStarStatement (op : String) (sid : Option String)
    (acts res : Option (List String)) : Statement :=
  { Sid := sid, Effect := "Allow", Principal := none, Action := acts,
    Resource := res, Condition := [⟨op, [("aws:SourceArn", ["*"])]⟩] }

/-- C4: an Allow statement conditioned on `aws:SourceArn` with bare value
`"*"` contributes nothing under `StringEquals` / `StringEqualsIgnoreCase`
(the whole result stays the empty `private` one), while under `StringLike`
the value contributes the wildcard-all identity: AccessLevel `public`,
IsPublic true, and `"*"` placed in both AllowedPrincipals and
AllowedPrincipalAccountIds. -/
theorem c4_thm (ver : String) (sid : Option String)
    (acts res : Option (List String)) (o : String)
    (ho : isValidAccountId o = true) :
    (∀ op, op = "StringEquals" ∨ op = "StringEqualsIgnoreCase" →
      EvaluatePolicy ⟨ver, [srcArnStarStatement op sid acts res]⟩ o =
        .ok emptyEvaluated) ∧
    EvaluatePolicy ⟨ver, [srcArnStarStatement "StringLike" sid acts res]⟩ o =
      .ok { AccessLevel := "public"
            AllowedOrganizationIds := []
            AllowedPrincipals := ["*"]
            AllowedPrincipalAccountIds := ["*"]
            AllowedPrincipalFederatedIdentities := []
            AllowedPrincipalServices := []
            IsPublic := true
            PublicAccessLevels := actionAccessLevels (acts.getD [])
            SharedAccessLevels := []
            PrivateAccessLevels := []
            PublicStatementIds := [stmtDisplaySid 0 (srcArnStarStatement "StringLike" sid acts res)]
            SharedStatementIds := [] } := by
  constructor
  · intro op hop
    rcases hop with hop | hop
    · subst hop
      have hids : statementIdentities
          (srcArnStarStatement "StringEquals" sid acts res) = .ok [] := rfl
      rw [evaluate_single ho rfl hids, aggregate_single]
      simp [summarize, srcArnStarStatement, emptyEvaluated, sortUniq_nil]
    · subst hop
      have hids : statementIdentities
          (srcArnStarStatement "StringEqualsIgnoreCase" sid acts res) =
          .ok [] := rfl
      rw [evaluate_single ho rfl hids, aggregate_single]
      simp [summarize, srcArnStarStatement, emptyEvaluated, sortUniq_nil]
  · have hids : statementIdentities
        (srcArnStarStatement "StringLike" sid acts res) =
        .ok [.account "*" "*"] := rfl
    rw [evaluate_single ho rfl hids, aggregate_single]
    simp [summarize, srcArnStarStatement, identityClass, sortUniq_singleton,
      sortUniq_nil, sortUniq_actionAccessLevels, identityLiteral,
      identityAccountId]

/-- C4, witness: the two cited fixtures
(`testSourceArnConditionWhenValueIsFullWildcardUsingStringEquals` and
`testSourceArnConditionWhenValueIsFullWildcardWithStringLike`). -/
theorem c4_witness :
    isValidAccountId "012345678901" = true ∧
      ("StringEquals" = "StringEquals" ∨ "StringEquals" = "StringEqualsIgnoreCase") ∧
      EvaluatePolicy
          ⟨"2012-10-17",
           [srcArnStarStatement "StringEquals" none (some ["ec2:DescribeVolumes"]) (some ["*"])]⟩
          "012345678901" = .ok emptyEvaluated ∧
      EvaluatePolicy
          ⟨"2012-10-17",
           [srcArnStarStatement "StringLike" none (some ["ec2:DescribeVolumes"]) (some ["*"])]⟩
          "012345678901" =
        .ok { AccessLevel := "public"
              AllowedOrganizationIds := []
              AllowedPrincipals := ["*"]
              AllowedPrincipalAccountIds := ["*"]
              AllowedPrincipalFederatedIdentities := []
              AllowedPrincipalServices := []
              IsPublic := true
              PublicAccessLevels :=
                actionAccessLevels ((some ["ec2:DescribeVolumes"]).getD [])
              SharedAccessLevels := []
              PrivateAccessLevels := []
              PublicStatementIds :=
                [stmtDisplaySid 0 (srcArnStarStatement "StringLike" none
                  (some ["ec2:DescribeVolumes"]) (some ["*"]))]
              SharedStatementIds := [] } :=
  ⟨by decide, Or.inl rfl,
    (c4_thm "2012-10-17" none (some ["ec2:DescribeVolumes"]) (some ["*"])
      "012345678901" (by decide)).1 "StringEquals" (Or.inl rfl),
    (c4_thm "2012-10-17" none (some ["ec2:DescribeVolumes"]) (some ["*"])
      "012345678901" (by decide)).2⟩

/-- A single Allow statement with no Principal whose only identity source is
a condition on `aws:PrincipalOrgID` (claim C5). -/
def orgCondStatement (op v : String) (sid : Option String)
    (acts res : Option (List String)) : Statement :=
  { Sid := sid, Effect := "Allow", Principal := none, Action := acts,
    Resource := res, Condition := [⟨op, [("aws:PrincipalOrgID", [v])]⟩] }

/-- C5: under any supported string operator, an accepted
`aws:PrincipalOrgID` value `w` is appended to AllowedOrganizationIds and
drives AccessLevel to `shared` with the statement recorded in
SharedStatementIds — except when the accepted value is exactly the
org-wildcard `o-*`, which drives AccessLevel to `public` with the statement
recorded in PublicStatementIds. -/
theorem c5_thm (ver : String) (sid : Option String)
    (acts res : Option (List String)) (o op v w : String)
    (ho : isValidAccountId o = true)
    (hop : (isLikeOp op || isEqualsOp op) = true)
    (hacc : orgAccept (isLikeOp op) v = some w) :
    EvaluatePolicy ⟨ver, [orgCondStatement op v sid acts res]⟩ o =
      .ok { AccessLevel := if w == "o-*" then "public" else "shared"
            AllowedOrganizationIds := [w]
            AllowedPrincipals := []
            AllowedPrincipalAccountIds := []
            AllowedPrincipalFederatedIdentities := []
            AllowedPrincipalServices := []
            IsPublic := (w == "o-*")
            PublicAccessLevels :=
              if w == "o-*" then actionAccessLevels (acts.getD []) else []
            SharedAccessLevels :=
              if w == "o-*" then [] else actionAccessLevels (acts.getD [])
            PrivateAccessLevels := []
            PublicStatementIds :=
              if w == "o-*" then [stmtDisplaySid 0 (orgCondStatement op v sid acts res)] else []
            SharedStatementIds :=
              if w == "o-*" then [] else [stmtDisplaySid 0 (orgCondStatement op v sid acts res)] } := by
  have hids : statementIdentities (orgCondStatement op v sid acts res) =
      .ok [.org w] := by
    simp [statementIdentities, principalIdsOf, orgCondStatement,
      conditionIdentities, condIdentity, hop, hacc]
  rw [evaluate_single ho rfl hids, aggregate_single]
  by_cases hw : w = "o-*"
  · subst hw
    simp [summarize, orgCondStatement, identityClass, identityLiteral,
      identityAccountId, sortUniq_singleton, sortUniq_nil,
      sortUniq_actionAccessLevels]
  · simp [summarize, orgCondStatement, identityClass, identityLiteral,
      identityAccountId, hw, sortUniq_singleton, sortUniq_nil,
      sortUniq_actionAccessLevels]

/-- C5, witness: the two cited fixtures
(`testPrincipalOrgIDConditionWhenValueIsAValidOrgIDUsingStringEquals` and
`testPrincipalOrgIDConditionWhenValueIsAllOrganizationsUsingStringLike`). -/
theorem c5_witness :
    (isValidAccountId "012345678901" = true ∧
      (isLikeOp "StringEquals" || isEqualsOp "StringEquals") = true ∧
      orgAccept (isLikeOp "StringEquals") "o-valid" = some "o-valid" ∧
      EvaluatePolicy
          ⟨"2012-10-17",
           [orgCondStatement "StringEquals" "o-valid" none
             (some ["ec2:DescribeVolumes"]) (some ["*"])]⟩
          "012345678901" =
        .ok { AccessLevel := if "o-valid" == "o-*" then "public" else "shared"
              AllowedOrganizationIds := ["o-valid"]
              AllowedPrincipals := []
              AllowedPrincipalAccountIds := []
              AllowedPrincipalFederatedIdentities := []
              AllowedPrincipalServices := []
              IsPublic := ("o-valid" == "o-*")
              PublicAccessLevels :=
                if "o-valid" == "o-*" then
                  actionAccessLevels ((some ["ec2:DescribeVolumes"]).getD []) else []
              SharedAccessLevels :=
                if "o-valid" == "o-*" then []
                else actionAccessLevels ((some ["ec2:DescribeVolumes"]).getD [])
              PrivateAccessLevels := []
              PublicStatementIds :=
                if "o-valid" == "o-*" then
                  [stmtDisplaySid 0 (orgCondStatement "StringEquals" "o-valid" none
                    (some ["ec2:DescribeVolumes"]) (some ["*"]))] else []
              SharedStatementIds :=
                if "o-valid" == "o-*" then []
                else [stmtDisplaySid 0 (orgCondStatement "StringEquals" "o-valid" none
                  (some ["ec2:DescribeVolumes"]) (some ["*"]))] }) ∧
      orgAccept (isLikeOp "StringLike") "o-*" = some "o-*" ∧
      EvaluatePolicy
          ⟨"2012-10-17",
           [orgCondStatement "StringLike" "o-*" none
             (some ["ec2:DescribeVolumes"]) (some ["*"])]⟩
          "012345678901" =
        .ok { AccessLevel := if "o-*" == "o-*" then "public" else "shared"
              AllowedOrganizationIds := ["o-*"]
              AllowedPrincipals := []
              AllowedPrincipalAccountIds := []
              AllowedPrincipalFederatedIdentities := []
              AllowedPrincipalServices := []
              IsPublic := ("o-*" == "o-*")
              PublicAccessLevels :=
                if "o-*" == "o-*" then
                  actionAccessLevels ((some ["ec2:DescribeVolumes"]).getD []) else []
              SharedAccessLevels :=
                if "o-*" == "o-*" then []
                else actionAccessLevels ((some ["ec2:DescribeVolumes"]).getD [])
              PrivateAccessLevels := []
              PublicStatementIds :=
                if "o-*" == "o-*" then
                  [stmtDisplaySid 0 (orgCondStatement "StringLike" "o-*" none
                    (some ["ec2:DescribeVolumes"]) (some ["*"]))] else []
              SharedStatementIds :=
                if "o-*" == "o-*" then []
                else [stmtDisplaySid 0 (orgCondStatement "StringLike" "o-*" none
                  (some ["ec2:DescribeVolumes"]) (some ["*"]))] } :=
  ⟨⟨by decide, by decide, by decide,
    c5_thm "2012-10-17" none (some ["ec2:DescribeVolumes"]) (some ["*"])
      "012345678901" "StringEquals" "o-valid" "o-valid" (by decide) (by decide)
      (by decide)⟩,
   by decide,
   c5_thm "2012-10-17" none (some ["ec2:DescribeVolumes"]) (some ["*"])
     "012345678901" "StringLike" "o-*" "o-*" (by decide) (by decide) (by decide)⟩

/-- A single Allow statement granting `acts` to the AWS account `a`
(claim C6). -/
def acctActionStatement (a : String) (acts : List String) : Statement :=
  { Effect := "Allow", Principal := some (.obj [a] [] []),
    Action := some acts, Resource := some ["*"], Condition := [] }

/-- The concatenation of the three per-class access-level lists of a result;
for a single-statement policy exactly one of them is populated. -/
def levelsOf (r : EvaluatedPolicy) : List String :=
  r.PublicAccessLevels ++ r.SharedAccessLevels ++ r.PrivateAccessLevels

/-- Full evaluation of a single-statement policy granting `acts` to a valid
account `a`, private or shared according to whether `a` is the owner. -/
theorem acctActionStatement_eval (ver : String) (a : String)
    (acts : List String) (o : String)
    (ho : isValidAccountId o = true) (ha : isValidAccountId a = true) :
    EvaluatePolicy ⟨ver, [acctActionStatement a acts]⟩ o =
      .ok { AccessLevel := if a == o then "private" else "shared"
            AllowedOrganizationIds := []
            AllowedPrincipals := [a]
            AllowedPrincipalAccountIds := [a]
            AllowedPrincipalFederatedIdentities := []
            AllowedPrincipalServices := []
            IsPublic := false
            PublicAccessLevels := []
            SharedAccessLevels := if a == o then [] else actionAccessLevels acts
            PrivateAccessLevels := if a == o then actionAccessLevels acts else []
            PublicStatementIds := []
            SharedStatementIds := if a == o then [] else ["Statement[1]"] } := by
  have hids : statementIdentities (acctActionStatement a acts) =
      .ok [.account a a] := by
    simp [statementIdentities, principalIdsOf, acctActionStatement, mapExcept,
      parseAwsPrincipal_valid ha, conditionIdentities]
  have hsidA : ("Statement[" ++ toString (0 + 1 : Nat) ++ "]" : String) =
      "Statement[1]" := rfl
  have hsidB : ("Statement[" ++ toString (1 : Nat) ++ "]" : String) =
      "Statement[1]" := rfl
  have hcls := identityClass_account (o := o) ha
  rw [evaluate_single ho rfl hids, aggregate_single]
  by_cases hao : a = o
  · subst hao
    simp [summarize, acctActionStatement, hcls, identityLiteral,
      identityAccountId, sortUniq_singleton, sortUniq_nil,
      sortUniq_actionAccessLevels, stmtDisplaySid, hsidA, hsidB]
  · simp [summarize, acctActionStatement, hcls, hao, identityLiteral,
      identityAccountId, sortUniq_singleton, sortUniq_nil,
      sortUniq_actionAccessLevels, stmtDisplaySid, hsidA, hsidB]

/-- C6: for an Allow statement granting actions to a classified (valid)
principal account, the Action `"*"` expands to exactly the five sorted
access-level tags, `"ec2:*"` expands to the same five, `"ec2:Describe*"`
yields exactly `["List", "Read"]`, and any Action matching no catalog entry
(unknown service or unknown API function) contributes no access level and
raises no error. -/
theorem c6_thm (ver a o : String)
    (ho : isValidAccountId o = true) (ha : isValidAccountId a = true) :
    ((EvaluatePolicy ⟨ver, [acctActionStatement a ["*"]]⟩ o).map levelsOf =
        .ok ["List", "Permissions management", "Read", "Tagging", "Write"]) ∧
    ((EvaluatePolicy ⟨ver, [acctActionStatement a ["ec2:*"]]⟩ o).map levelsOf =
        .ok ["List", "Permissions management", "Read", "Tagging", "Write"]) ∧
    ((EvaluatePolicy ⟨ver, [acctActionStatement a ["ec2:Describe*"]]⟩ o).map levelsOf =
        .ok ["List", "Read"]) ∧
    (∀ act, actionAccessLevels [act] = [] →
      (EvaluatePolicy ⟨ver, [acctActionStatement a [act]]⟩ o).map levelsOf =
        .ok []) := by
  have h5a : actionAccessLevels ["*"] =
      ["List", "Permissions management", "Read", "Tagging", "Write"] := by decide
  have h5b : actionAccessLevels ["ec2:*"] =
      ["List", "Permissions management", "Read", "Tagging", "Write"] := by decide
  have h2 : actionAccessLevels ["ec2:Describe*"] = ["List", "Read"] := by decide
  refine ⟨?_, ?_, ?_, ?_⟩
  · rw [acctActionStatement_eval ver a ["*"] o ho ha]
    by_cases hao : a = o <;> simp [levelsOf, Except.map, hao, h5a]
  · rw [acctActionStatement_eval ver a ["ec2:*"] o ho ha]
    by_cases hao : a = o <;> simp [levelsOf, Except.map, hao, h5b]
  · rw [acctActionStatement_eval ver a ["ec2:Describe*"] o ho ha]
    by_cases hao : a = o <;> simp [levelsOf, Except.map, hao, h2]
  · intro act hlev
    rw [acctActionStatement_eval ver a [act] o ho ha]
    by_cases hao : a = o <;> simp [levelsOf, Except.map, hao, hlev]

/-- C6, witness: the theorem at the fixtures' owner/principal account, with
the unknown-action conjunct instantiated at `ec:StartInstances` (the unknown
service of `testUnknownApiService`). -/
theorem c6_witness :
    isValidAccountId "012345678901" = true ∧
      actionAccessLevels ["ec:StartInstances"] = [] ∧
      ((EvaluatePolicy
          ⟨"2012-10-17", [acctActionStatement "012345678901" ["*"]]⟩
          "012345678901").map levelsOf =
        .ok ["List", "Permissions management", "Read", "Tagging", "Write"]) ∧
      ((EvaluatePolicy
          ⟨"2012-10-17", [acctActionStatement "012345678901" ["ec2:Describe*"]]⟩
          "012345678901").map levelsOf = .ok ["List", "Read"]) ∧
      ((EvaluatePolicy
          ⟨"2012-10-17", [acctActionStatement "012345678901" ["ec:StartInstances"]]⟩
          "012345678901").map levelsOf = .ok []) :=
  ⟨by decide, by decide,
    (c6_thm "2012-10-17" "012345678901" "012345678901" (by decide) (by decide)).1,
    (c6_thm "2012-10-17" "012345678901" "012345678901" (by decide) (by decide)).2.2.1,
    (c6_thm "2012-10-17" "012345678901" "012345678901" (by decide) (by decide)).2.2.2
      "ec:StartInstances" (by decide)⟩

theorem validateEffects_error {l : List Statement} {e : PolicyError}
    (h : validateEffects l = .error e) : e = .invalidEffect := by
  induction l with
  | nil => simp [validateEffects] at h
  | cons s rest ih =>
    unfold validateEffects at h
    cases hc : (s.Effect == "Allow" || s.Effect == "Deny") with
    | true =>
      rw [hc] at h
      exact ih (by simpa using h)
    | false =>
      rw [hc] at h
      simp at h
      exact h.symm

theorem validateEffects_ok {l : List Statement}
    (h : ∀ s ∈ l, s.Effect = "Allow" ∨ s.Effect = "Deny") :
    validateEffects l = .ok () := by
  induction l with
  | nil => rfl
  | cons s rest ih =>
    have hc : (s.Effect == "Allow" || s.Effect == "Deny") = true := by
      rcases h s (by simp) with h1 | h1 <;> simp [h1]
    simp only [validateEffects, hc, if_true]
    exact ih (fun t ht => h t (by simp [ht]))

theorem validateEffects_bad {l : List Statement}
    (h : ∃ s ∈ l, ¬(s.Effect = "Allow" ∨ s.Effect = "Deny")) :
    validateEffects l = .error .invalidEffect := by
  induction l with
  | nil => rcases h with ⟨s, hs, _⟩; simp at hs
  | cons s rest ih =>
    unfold validateEffects
    cases hc : (s.Effect == "Allow" || s.Effect == "Deny") with
    | false => simp
    | true =>
      simp only [if_true]
      apply ih
      rcases h with ⟨t, ht, hbad⟩
      rcases List.mem_cons.mp ht with ht1 | ht1
      · subst ht1
        exact absurd (by simpa using hc) hbad
      · exact ⟨t, ht1, hbad⟩

theorem validateSids_error {l : List Statement} {e : PolicyError} :
    ∀ {seen : List String}, validateSids seen l = .error e →
      ∃ x, e = .duplicateSid x := by
  induction l with
  | nil => intro seen h; simp [validateSids] at h
  | cons s rest ih =>
    intro seen h
    unfold validateSids at h
    split at h
    · exact ih h
    · split at h
      · injection h with h1
        exact ⟨_, h1.symm⟩
      · exact ih h

theorem validateSids_ok {l : List Statement}
    (h : ∀ s ∈ l, s.Sid = none) :
    ∀ seen, validateSids seen l = .ok () := by
  induction l with
  | nil => intro seen; rfl
  | cons s rest ih =>
    intro seen
    unfold validateSids
    rw [h s (by simp)]
    exact ih (fun t ht => h t (by simp [ht])) seen

theorem parseAwsPrincipal_error {v : String} {e : PolicyError}
    (h : parseAwsPrincipal v = .error e) : e = .invalidPrincipal v := by
  unfold parseAwsPrincipal at h
  split at h
  · simp at h
  · split at h
    · simp at h
    · split at h
      · split at h
        · simp at h
        · injection h with h1
          exact h1.symm
      · split at h
        · simp at h
        · injection h with h1
          exact h1.symm
      · injection h with h1
        exact h1.symm

theorem mapExcept_error {α β ε : Type} {f : α → Except ε β} {l : List α}
    {e : ε} (h : mapExcept f l = .error e) : ∃ a ∈ l, f a = .error e := by
  induction l with
  | nil => simp [mapExcept] at h
  | cons a as ih =>
    unfold mapExcept at h
    cases hfa : f a with
    | error e1 =>
      rw [hfa] at h
      injection h with h1
      exact ⟨a, by simp, by rw [hfa, h1]⟩
    | ok b =>
      rw [hfa] at h
      cases hrest : mapExcept f as with
      | error e1 =>
        rw [hrest] at h
        injection h with h1
        obtain ⟨x, hx, hfx⟩ := ih (by rw [hrest, h1])
        exact ⟨x, by simp [hx], hfx⟩
      | ok bs =>
        rw [hrest] at h
        simp at h

theorem principalIdsOf_error {p : Option Principal} {e : PolicyError}
    (h : principalIdsOf p = .error e) : ∃ v, e = .invalidPrincipal v := by
  unfold principalIdsOf at h
  split at h
  · simp at h
  · rename_i v
    split at h
    · rename_i e1 heq
      injection h with h1
      exact ⟨v, h1 ▸ parseAwsPrincipal_error heq⟩
    · simp at h
  · rename_i aws fed svc
    split at h
    · rename_i e1 heq
      injection h with h1
      obtain ⟨a, _, ha⟩ := mapExcept_error heq
      exact ⟨a, h1 ▸ parseAwsPrincipal_error ha⟩
    · simp at h

theorem statementIdentities_error {s : Statement} {e : PolicyError}
    (h : statementIdentities s = .error e) : ∃ v, e = .invalidPrincipal v := by
  unfold statementIdentities at h
  cases hp : principalIdsOf s.Principal with
  | error e1 =>
    rw [hp] at h
    injection h with h1
    exact h1 ▸ principalIdsOf_error hp
  | ok pids =>
    rw [hp] at h
    simp at h

theorem resolveStatements_error {o : String} {da : Bool} {denied : List String}
    {l : List Statement} {e : PolicyError} :
    ∀ {idx : Nat}, resolveStatements o da denied idx l = .error e →
      ∃ v, e = .invalidPrincipal v := by
  induction l with
  | nil => intro idx h; simp [resolveStatements] at h
  | cons s rest ih =>
    intro idx h
    unfold resolveStatements at h
    cases hc : (s.Effect == "Allow" && !da) with
    | false =>
      rw [hc] at h
      exact ih (by simpa using h)
    | true =>
      rw [hc] at h
      simp only [if_true] at h
      cases hsi : statementIdentities s with
      | error e1 =>
        rw [hsi] at h
        injection h with h1
        exact h1 ▸ statementIdentities_error hsi
      | ok ids =>
        rw [hsi] at h
        cases hr : resolveStatements o da denied (idx + 1) rest with
        | error e1 =>
          rw [hr] at h
          injection h with h1
          exact ih (by rw [hr, h1])
        | ok tail =>
          rw [hr] at h
          simp at h

/-- C8: the owner account id is accepted exactly when it consists of 12
ASCII digits.  Any other value makes EvaluatePolicy fail, before any policy
content is examined, with the `InvalidSourceAccountId` error whose message
carries the offending value verbatim; under a valid owner account id that
error can never be produced. -/
theorem c8_thm (p : PolicyDocument) (o : String) :
    (isValidAccountId o = false →
      EvaluatePolicy p o = .error (.invalidSourceAccountId o) ∧
        errorMessage (.invalidSourceAccountId o) =
          "source account id is invalid: " ++ o) ∧
    (isValidAccountId o = true →
      ∀ e, EvaluatePolicy p o = .error e →
        ∀ x, e ≠ .invalidSourceAccountId x) := by
  constructor
  · intro hbad
    exact ⟨by simp [EvaluatePolicy, hbad], rfl⟩
  · intro hok e h x
    unfold EvaluatePolicy at h
    rw [hok] at h
    simp only [Bool.not_true, Bool.false_eq_true, if_false] at h
    cases hve : validateEffects p.Statement with
    | error e1 =>
      rw [hve] at h
      injection h with h1
      rw [← h1, validateEffects_error hve]
      simp
    | ok u =>
      rw [hve] at h
      cases hvs : validateSids [] p.Statement with
      | error e1 =>
        rw [hvs] at h
        injection h with h1
        obtain ⟨y, hy⟩ := validateSids_error hvs
        rw [← h1, hy]
        simp
      | ok u2 =>
        rw [hvs] at h
        cases hr : resolveStatements o
            (((p.Statement.map denyLiterals).flatten).contains "*")
            ((p.Statement.map denyLiterals).flatten) 0 p.Statement with
        | error e1 =>
          rw [hr] at h
          injection h with h1
          obtain ⟨v, hv⟩ := resolveStatements_error hr
          rw [← h1, hv]
          simp
        | ok ss =>
          rw [hr] at h
          simp at h

/-- C8, witness: rejection of the non-numeric fixture value and acceptance
of the valid fixture value, on the empty policy. -/
theorem c8_witness :
    (isValidAccountId "123A123123" = false ∧
      EvaluatePolicy {} "123A123123" =
        .error (.invalidSourceAccountId "123A123123") ∧
      errorMessage (.invalidSourceAccountId "123A123123") =
        "source account id is invalid: " ++ "123A123123") ∧
    (isValidAccountId "012345678901" = true ∧
      (EvaluatePolicy {} "012345678901" = .ok emptyEvaluated ∧
        ∀ e, EvaluatePolicy ({} : PolicyDocument) "012345678901" = .error e →
          ∀ x, e ≠ .invalidSourceAccountId x)) :=
  ⟨⟨by decide, (c8_thm {} "123A123123").1 (by decide)⟩,
   ⟨by decide, by decide, (c8_thm {} "012345678901").2 (by decide)⟩⟩

/-- C9: a statement whose Effect is not exactly `Allow` or `Deny` makes
evaluation (under a valid owner id) fail with precisely the message
`element Effect is invalid - valid choices are 'Allow' or 'Deny'`, while
policies whose statements all have Effect exactly `Allow` or `Deny` never
produce that error. -/
theorem c9_thm (p : PolicyDocument) (o : String)
    (ho : isValidAccountId o = true) :
    ((∃ s ∈ p.Statement, ¬(s.Effect = "Allow" ∨ s.Effect = "Deny")) →
      EvaluatePolicy p o = .error .invalidEffect ∧
        errorMessage .invalidEffect =
          "element Effect is invalid - valid choices are 'Allow' or 'Deny'") ∧
    ((∀ s ∈ p.Statement, s.Effect = "Allow" ∨ s.Effect = "Deny") →
      EvaluatePolicy p o ≠ .error .invalidEffect) := by
  constructor
  · intro hbad
    refine ⟨?_, rfl⟩
    unfold EvaluatePolicy
    rw [ho]
    simp only [Bool.not_true, Bool.false_eq_true, if_false]
    rw [validateEffects_bad hbad]
  · intro hgood h
    unfold EvaluatePolicy at h
    rw [ho] at h
    simp only [Bool.not_true, Bool.false_eq_true, if_false] at h
    rw [validateEffects_ok hgood] at h
    cases hvs : validateSids [] p.Statement with
    | error e1 =>
      rw [hvs] at h
      injection h with h1
      obtain ⟨y, hy⟩ := validateSids_error hvs
      rw [hy] at h1
      simp at h1
    | ok u =>
      rw [hvs] at h
      cases hr : resolveStatements o
          (((p.Statement.map denyLiterals).flatten).contains "*")
          ((p.Statement.map denyLiterals).flatten) 0 p.Statement with
      | error e1 =>
        rw [hr] at h
        injection h with h1
        obtain ⟨v, hv⟩ := resolveStatements_error hr
        rw [hv] at h1
        simp at h1
      | ok ss =>
        rw [hr] at h
        simp at h

/-- C9, witness: the wrong-casing fixture `"allow"` fails with the exact
message, and the valid-effects fixture does not produce that error. -/
theorem c9_witness :
    (isValidAccountId "123456789012" = true ∧
      (∃ s ∈ [({ Effect := "allow" } : Statement)],
        ¬(s.Effect = "Allow" ∨ s.Effect = "Deny")) ∧
      EvaluatePolicy ⟨"2012-10-17", [{ Effect := "allow" }]⟩ "123456789012" =
        .error .invalidEffect ∧
      errorMessage .invalidEffect =
        "element Effect is invalid - valid choices are 'Allow' or 'Deny'") ∧
    EvaluatePolicy ⟨"2012-10-17", [{ Effect := "Allow" }, { Effect := "Deny" }]⟩
        "123456789012" ≠ .error .invalidEffect :=
  ⟨⟨by decide, ⟨{ Effect := "allow" }, by simp, by simp⟩,
    (c9_thm ⟨"2012-10-17", [{ Effect := "allow" }]⟩ "123456789012"
        (by decide)).1
      ⟨{ Effect := "allow" }, by simp, by simp⟩⟩,
   (c9_thm ⟨"2012-10-17", [{ Effect := "Allow" }, { Effect := "Deny" }]⟩
       "123456789012" (by decide)).2 (by decide)⟩

/-- A statement carrying only an Effect field (no Sid, Principal, Action or
Condition), with a valid Effect (claim C10). -/
def TrivialStmt (s : Statement) : Prop :=
  s.Sid = none ∧ s.Principal = none ∧ s.Action = none ∧ s.Condition = [] ∧
    (s.Effect = "Allow" ∨ s.Effect = "Deny")

instance (s : Statement) : Decidable (TrivialStmt s) := by
  unfold TrivialStmt
  infer_instance

/-- A statement summary that contributes nothing to the aggregate. -/
def InertSummary (t : StmtSummary) : Prop :=
  t.principals = [] ∧ t.accountIds = [] ∧ t.federated = [] ∧
    t.services = [] ∧ t.orgs = [] ∧ t.hasPub = false ∧ t.hasShr = false ∧
    t.hasPriv = false

theorem summarize_nil_inert (o : String) (idx : Nat) (s : Statement) :
    InertSummary (summarize o idx s []) :=
  ⟨rfl, rfl, rfl, rfl, rfl, rfl, rfl, rfl⟩

theorem flatten_nil_of_forall {α : Type} {f : α → List String} {l : List α}
    (hf : ∀ t ∈ l, f t = []) : (l.map f).flatten = [] := by
  induction l with
  | nil => rfl
  | cons t ts ih =>
    simp [hf t (by simp), ih (fun u hu => hf u (by simp [hu]))]

theorem any_false_of_forall {α : Type} {f : α → Bool} {l : List α}
    (hf : ∀ t ∈ l, f t = false) : l.any f = false := by
  induction l with
  | nil => rfl
  | cons t ts ih =>
    simp [hf t (by simp), ih (fun u hu => hf u (by simp [hu]))]

theorem filter_nil_of_forall {α : Type} {f : α → Bool} {l : List α}
    (hf : ∀ t ∈ l, f t = false) : l.filter f = [] := by
  induction l with
  | nil => rfl
  | cons t ts ih =>
    simp [List.filter_cons, hf t (by simp), ih (fun u hu => hf u (by simp [hu]))]

theorem aggregate_inert {ss : List StmtSummary}
    (h : ∀ t ∈ ss, InertSummary t) : aggregate ss = emptyEvaluated := by
  have hPub : ss.any (·.hasPub) = false :=
    any_false_of_forall (fun t ht => (h t ht).2.2.2.2.2.1)
  have hShr : ss.any (·.hasShr) = false :=
    any_false_of_forall (fun t ht => (h t ht).2.2.2.2.2.2.1)
  have hfPub : ss.filter (·.hasPub) = [] :=
    filter_nil_of_forall (fun t ht => (h t ht).2.2.2.2.2.1)
  have hfShr : ss.filter (·.hasShr) = [] :=
    filter_nil_of_forall (fun t ht => (h t ht).2.2.2.2.2.2.1)
  have hfPriv : ss.filter (·.hasPriv) = [] :=
    filter_nil_of_forall (fun t ht => (h t ht).2.2.2.2.2.2.2)
  have h1 : (ss.map (·.principals)).flatten = [] :=
    flatten_nil_of_forall (fun t ht => (h t ht).1)
  have h2 : (ss.map (·.accountIds)).flatten = [] :=
    flatten_nil_of_forall (fun t ht => (h t ht).2.1)
  have h3 : (ss.map (·.federated)).flatten = [] :=
    flatten_nil_of_forall (fun t ht => (h t ht).2.2.1)
  have h4 : (ss.map (·.services)).flatten = [] :=
    flatten_nil_of_forall (fun t ht => (h t ht).2.2.2.1)
  have h5 : (ss.map (·.orgs)).flatten = [] :=
    flatten_nil_of_forall (fun t ht => (h t ht).2.2.2.2.1)
  unfold aggregate
  rw [hPub, hShr, hfPub, hfShr, hfPriv, h1, h2, h3, h4, h5]
  rfl

theorem denyLiterals_trivial {s : Statement} (h : TrivialStmt s) :
    denyLiterals s = [] := by
  obtain ⟨_, hP, _, _, _⟩ := h
  simp [denyLiterals, hP]

theorem resolveStatements_trivial {l : List Statement}
    (h : ∀ s ∈ l, TrivialStmt s) (o : String) :
    ∀ idx, ∃ ss, resolveStatements o false [] idx l = .ok ss ∧
      ∀ t ∈ ss, InertSummary t := by
  induction l with
  | nil => intro idx; exact ⟨[], rfl, by simp⟩
  | cons s rest ih =>
    intro idx
    obtain ⟨hsid, hP, hA, hC, hEff⟩ := h s (by simp)
    obtain ⟨ss, hss, hin⟩ := ih (fun t ht => h t (by simp [ht])) (idx + 1)
    rcases hEff with hE | hE
    · have hc : (s.Effect == "Allow" && !false) = true := by simp [hE]
      have hids : statementIdentities s = .ok [] := by
        simp [statementIdentities, principalIdsOf, hP, conditionIdentities, hC]
      refine ⟨summarize o idx s [] :: ss, ?_, ?_⟩
      · unfold resolveStatements
        rw [hc]
        simp only [if_true]
        rw [hids, hss]
        rfl
      · intro t ht
        rcases List.mem_cons.mp ht with ht1 | ht1
        · subst ht1
          exact summarize_nil_inert o idx s
        · exact hin t ht1
    · have hc : (s.Effect == "Allow" && !false) = false := by simp [hE]
      refine ⟨ss, ?_, hin⟩
      unfold resolveStatements
      rw [hc]
      simpa using hss

/-- C10: a policy whose statements carry only a valid Effect field evaluates
(under a valid owner) without error to exactly the same result as the empty
policy: the all-empty `private` output. -/
theorem c10_thm (p : PolicyDocument) (o : String)
    (ho : isValidAccountId o = true)
    (htriv : ∀ s ∈ p.Statement, TrivialStmt s) :
    EvaluatePolicy p o = .ok emptyEvaluated ∧
      EvaluatePolicy ⟨p.Version, []⟩ o = .ok emptyEvaluated := by
  constructor
  · have hve := validateEffects_ok (fun s hs => (htriv s hs).2.2.2.2)
    have hvs := validateSids_ok (fun s hs => (htriv s hs).1) []
    have hden : (p.Statement.map denyLiterals).flatten = [] :=
      flatten_nil_of_forall (fun s hs => denyLiterals_trivial (htriv s hs))
    have hc : (([] : List String).contains "*") = false := rfl
    obtain ⟨ss, hss, hin⟩ := resolveStatements_trivial htriv o 0
    unfold EvaluatePolicy
    rw [ho]
    simp only [Bool.not_true, Bool.false_eq_true, if_false, hve, hvs, hden, hc,
      hss, aggregate_inert hin]
  · unfold EvaluatePolicy
    rw [ho]
    rfl

/-- C10, witness: the effects-only fixture of
`testEffectElementWithValidValues`. -/
theorem c10_witness :
    isValidAccountId "123456789012" = true ∧
      (∀ s ∈ [({ Effect := "Allow" } : Statement), { Effect := "Deny" }],
        TrivialStmt s) ∧
      EvaluatePolicy
          ⟨"2012-10-17", [{ Effect := "Allow" }, { Effect := "Deny" }]⟩
          "123456789012" = .ok emptyEvaluated ∧
      EvaluatePolicy ⟨"2012-10-17", []⟩ "123456789012" = .ok emptyEvaluated :=
  ⟨by decide, by decide,
    c10_thm ⟨"2012-10-17", [{ Effect := "Allow" }, { Effect := "Deny" }]⟩
      "123456789012" (by decide) (by decide)⟩

/-- Two Principal clauses equal up to reordering of the `AWS` identity
list. -/
def PrincipalPerm : Option Principal → Option Principal → Prop
  | none, none => True
  | some (.scalar a), some (.scalar b) => a = b
  | some (.obj aws1 f1 s1), some (.obj aws2 f2 s2) =>
    aws1.Perm aws2 ∧ f1 = f2 ∧ s1 = s2
  | _, _ => False

instance : ∀ p q : Option Principal, Decidable (PrincipalPerm p q)
  | none, none => .isTrue trivial
  | none, some (.scalar _) => .isFalse (fun h => h)
  | none, some (.obj _ _ _) => .isFalse (fun h => h)
  | some (.scalar _), none => .isFalse (fun h => h)
  | some (.obj _ _ _), none => .isFalse (fun h => h)
  | some (.scalar _), some (.obj _ _ _) => .isFalse (fun h => h)
  | some (.obj _ _ _), some (.scalar _) => .isFalse (fun h => h)
  | some (.scalar a), some (.scalar b) =>
    if h : a = b then .isTrue h else .isFalse h
  | some (.obj aws1 f1 s1), some (.obj aws2 f2 s2) =>
    (inferInstance : Decidable (aws1.Perm aws2 ∧ f1 = f2 ∧ s1 = s2))

/-- Two statements equal except for the order of their `AWS` principal
identity strings. -/
def StatementPerm (s t : Statement) : Prop :=
  s.Sid = t.Sid ∧ s.Effect = t.Effect ∧ s.Action = t.Action ∧
    s.Resource = t.Resource ∧ s.Condition = t.Condition ∧
    PrincipalPerm s.Principal t.Principal

instance (s t : Statement) : Decidable (StatementPerm s t) := by
  unfold StatementPerm
  infer_instance

instance forall2Dec {α β : Type} {R : α → β → Prop}
    [∀ a b, Decidable (R a b)] :
    ∀ (l1 : List α) (l2 : List β), Decidable (List.Forall₂ R l1 l2)
  | [], [] => .isTrue .nil
  | [], _ :: _ => .isFalse (fun h => by cases h)
  | _ :: _, [] => .isFalse (fun h => by cases h)
  | a :: l1, b :: l2 =>
    have : Decidable (List.Forall₂ R l1 l2) := forall2Dec l1 l2
    decidable_of_iff (R a b ∧ List.Forall₂ R l1 l2) List.forall₂_cons.symm

theorem mapExcept_perm {α β ε : Type} {f : α → Except ε β} {l1 l2 : List α}
    (hp : l1.Perm l2) :
    ∀ {xs}, mapExcept f l1 = .ok xs →
      ∃ ys, mapExcept f l2 = .ok ys ∧ xs.Perm ys := by
  induction hp with
  | nil =>
    intro xs h
    exact ⟨xs, h, .refl xs⟩
  | cons x p ih =>
    rename_i t1 t2
    intro xs h
    unfold mapExcept at h
    split at h
    · exact absurd h (by simp)
    · rename_i b heq
      split at h
      · exact absurd h (by simp)
      · rename_i bs heq2
        injection h with h1
        obtain ⟨ys, hys, hbys⟩ := ih heq2
        refine ⟨b :: ys, ?_, h1 ▸ hbys.cons b⟩
        unfold mapExcept
        rw [heq, hys]
  | swap x y t =>
    intro xs h
    unfold mapExcept at h
    split at h
    · exact absurd h (by simp)
    · rename_i by1 heqy
      split at h
      · exact absurd h (by simp)
      · rename_i bx heqx
        injection h with h1
        unfold mapExcept at heqx
        split at heqx
        · exact absurd heqx (by simp)
        · rename_i b2 heqx2
          split at heqx
          · exact absurd heqx (by simp)
          · rename_i bs heqm
            injection heqx with h2
            refine ⟨b2 :: by1 :: bs, ?_, ?_⟩
            · unfold mapExcept
              rw [heqx2]
              unfold mapExcept
              rw [heqy, heqm]
            · rw [← h1, ← h2]
              exact List.Perm.swap b2 by1 bs
  | trans p1 p2 ih1 ih2 =>
    intro xs h
    obtain ⟨ys, hys, h1⟩ := ih1 h
    obtain ⟨zs, hzs, h2⟩ := ih2 hys
    exact ⟨zs, hzs, h1.trans h2⟩

theorem principalIdsOf_perm {p q : Option Principal} (hpq : PrincipalPerm p q) :
    ∀ {ids}, principalIdsOf p = .ok ids →
      ∃ ids', principalIdsOf q = .ok ids' ∧ ids.Perm ids' := by
  rcases p with _ | pp <;> rcases q with _ | qq
  · intro ids h
    exact ⟨ids, h, .refl _⟩
  · rcases qq with v | ⟨aws, fed, svc⟩ <;> exact hpq.elim
  · rcases pp with v | ⟨aws, fed, svc⟩ <;> exact hpq.elim
  · rcases pp with v1 | ⟨aws1, f1, s1⟩ <;> rcases qq with v2 | ⟨aws2, f2, s2⟩
    · have hv : v1 = v2 := hpq
      subst hv
      intro ids h
      exact ⟨ids, h, .refl _⟩
    · exact hpq.elim
    · exact hpq.elim
    · obtain ⟨hperm, hf, hs⟩ := hpq
      subst hf
      subst hs
      intro ids h
      simp only [principalIdsOf] at h ⊢
      split at h
      · exact absurd h (by simp)
      · rename_i xs heq
        injection h with h1
        obtain ⟨ys, hys, hxy⟩ := mapExcept_perm hperm heq
        rw [hys]
        exact ⟨_, rfl, h1 ▸ ((hxy.append_right _).append_right _)⟩

theorem statementIdentities_perm {s t : Statement} (hst : StatementPerm s t)
    {ids : List Identity} (h : statementIdentities s = .ok ids) :
    ∃ ids', statementIdentities t = .ok ids' ∧ ids.Perm ids' := by
  obtain ⟨hsid, heff, hact, hres, hcond, hprin⟩ := hst
  unfold statementIdentities at h ⊢
  cases hp : principalIdsOf s.Principal with
  | error e =>
    rw [hp] at h
    simp at h
  | ok pids =>
    rw [hp] at h
    injection h with h1
    obtain ⟨pids', hp', hperm⟩ := principalIdsOf_perm hprin hp
    rw [hp', ← hcond]
    exact ⟨_, rfl, h1 ▸ hperm.append_right _⟩

/-- Per-statement summaries equal up to reordering of the identity-derived
lists. -/
def SummaryPerm (u v : StmtSummary) : Prop :=
  u.principals.Perm v.principals ∧ u.accountIds.Perm v.accountIds ∧
    u.federated.Perm v.federated ∧ u.services.Perm v.services ∧
    u.orgs.Perm v.orgs ∧ u.hasPub = v.hasPub ∧ u.hasShr = v.hasShr ∧
    u.hasPriv = v.hasPriv ∧ u.sid = v.sid ∧ u.levels = v.levels

theorem summarize_perm {o : String} {idx : Nat} {s t : Statement}
    (hst : StatementPerm s t) {ids ids' : List Identity}
    (hperm : ids.Perm ids') :
    SummaryPerm (summarize o idx s ids) (summarize o idx t ids') := by
  obtain ⟨hsid, heff, hact, -, -, -⟩ := hst
  refine ⟨hperm.filterMap _, hperm.filterMap _, hperm.filterMap _,
    hperm.filterMap _, hperm.filterMap _, any_eq_of_perm _ hperm,
    any_eq_of_perm _ hperm, any_eq_of_perm _ hperm, ?_, ?_⟩
  · simp [summarize, stmtDisplaySid, hsid]
  · simp [summarize, hact]

theorem resolveStatements_perm {o : String} {da : Bool}
    {denied denied' : List String} (hd : denied.Perm denied')
    {l l' : List Statement} (hll : List.Forall₂ StatementPerm l l') :
    ∀ {idx : Nat} {ss}, resolveStatements o da denied idx l = .ok ss →
      ∃ ss', resolveStatements o da denied' idx l' = .ok ss' ∧
        List.Forall₂ SummaryPerm ss ss' := by
  induction hll with
  | nil =>
    intro idx ss h
    injection h with h1
    exact ⟨[], rfl, h1 ▸ .nil⟩
  | cons hst hrest ih =>
    rename_i s t l1 l2
    intro idx ss h
    have heff : s.Effect = t.Effect := hst.2.1
    unfold resolveStatements at h ⊢
    rw [← heff]
    cases hc : (s.Effect == "Allow" && !da) with
    | false =>
      simp only [hc] at h
      rw [if_neg Bool.false_ne_true] at h ⊢
      exact ih h
    | true =>
      simp only [hc, if_true] at h
      rw [if_pos (rfl : (true : Bool) = true)]
      split at h
      · exact absurd h (by simp)
      · rename_i ids hsi
        obtain ⟨ids', hsi', hperm⟩ := statementIdentities_perm hst hsi
        rw [hsi']
        split at h
        · exact absurd h (by simp)
        · rename_i tail hr
          injection h with h1
          obtain ⟨tail', hr', hfor⟩ := ih hr
          rw [hr']
          refine ⟨_, rfl, h1 ▸ List.Forall₂.cons ?_ hfor⟩
          apply summarize_perm hst
          have h2 : ids'.filter
              (fun i => !(denied'.contains ((identityLiteral i).getD ""))) =
              ids'.filter
              (fun i => !(denied.contains ((identityLiteral i).getD ""))) :=
            List.filter_congr (fun x _ => by rw [contains_eq_of_perm hd])
          rw [h2]
          exact hperm.filter _

theorem forall2_any_eq {f : StmtSummary → Bool}
    (hf : ∀ u v, SummaryPerm u v → f u = f v)
    {ss ss' : List StmtSummary} (h : List.Forall₂ SummaryPerm ss ss') :
    ss.any f = ss'.any f := by
  induction h with
  | nil => rfl
  | cons hst hrest ih => simp [List.any_cons, hf _ _ hst, ih]

theorem forall2_flatten_perm {f : StmtSummary → List String}
    (hf : ∀ u v, SummaryPerm u v → (f u).Perm (f v))
    {ss ss' : List StmtSummary} (h : List.Forall₂ SummaryPerm ss ss') :
    ((ss.map f).flatten).Perm ((ss'.map f).flatten) := by
  induction h with
  | nil => exact .refl _
  | cons hst hrest ih =>
    simp only [List.map_cons, List.flatten_cons]
    exact (hf _ _ hst).append ih

theorem forall2_filter_map_eq {γ : Type} {b : StmtSummary → Bool}
    {g : StmtSummary → γ}
    (hb : ∀ u v, SummaryPerm u v → b u = b v)
    (hg : ∀ u v, SummaryPerm u v → g u = g v)
    {ss ss' : List StmtSummary} (h : List.Forall₂ SummaryPerm ss ss') :
    (ss.filter b).map g = (ss'.filter b).map g := by
  induction h with
  | nil => rfl
  | cons hst hrest ih =>
    rename_i u v l1 l2
    simp only [List.filter_cons]
    rw [← hb u v hst]
    cases hbu : b u with
    | false => simpa using ih
    | true => simp [List.map_cons, hg u v hst, ih]

theorem aggregate_perm {ss ss' : List StmtSummary}
    (h : List.Forall₂ SummaryPerm ss ss') : aggregate ss = aggregate ss' := by
  have e1 := forall2_any_eq (f := (·.hasPub)) (fun u v hp => hp.2.2.2.2.2.1) h
  have e2 := forall2_any_eq (f := (·.hasShr)) (fun u v hp => hp.2.2.2.2.2.2.1) h
  have e3 := sortUniq_eq_of_perm
    (forall2_flatten_perm (f := (·.orgs)) (fun u v hp => hp.2.2.2.2.1) h)
  have e4 := sortUniq_eq_of_perm
    (forall2_flatten_perm (f := (·.principals)) (fun u v hp => hp.1) h)
  have e5 := sortUniq_eq_of_perm
    (forall2_flatten_perm (f := (·.accountIds)) (fun u v hp => hp.2.1) h)
  have e6 := sortUniq_eq_of_perm
    (forall2_flatten_perm (f := (·.federated)) (fun u v hp => hp.2.2.1) h)
  have e7 := sortUniq_eq_of_perm
    (forall2_flatten_perm (f := (·.services)) (fun u v hp => hp.2.2.2.1) h)
  have e8 := forall2_filter_map_eq (b := (·.hasPub)) (g := (·.levels))
    (fun u v hp => hp.2.2.2.2.2.1) (fun u v hp => hp.2.2.2.2.2.2.2.2.2) h
  have e9 := forall2_filter_map_eq (b := (·.hasShr)) (g := (·.levels))
    (fun u v hp => hp.2.2.2.2.2.2.1) (fun u v hp => hp.2.2.2.2.2.2.2.2.2) h
  have e10 := forall2_filter_map_eq (b := (·.hasPriv)) (g := (·.levels))
    (fun u v hp => hp.2.2.2.2.2.2.2.1) (fun u v hp => hp.2.2.2.2.2.2.2.2.2) h
  have e11 := forall2_filter_map_eq (b := (·.hasPub)) (g := (·.sid))
    (fun u v hp => hp.2.2.2.2.2.1) (fun u v hp => hp.2.2.2.2.2.2.2.2.1) h
  have e12 := forall2_filter_map_eq (b := (·.hasShr)) (g := (·.sid))
    (fun u v hp => hp.2.2.2.2.2.2.1) (fun u v hp => hp.2.2.2.2.2.2.2.2.1) h
  unfold aggregate
  rw [e1, e2, e3, e4, e5, e6, e7, e8, e9, e10, e11, e12]

theorem validateEffects_congr {l l' : List Statement}
    (h : List.Forall₂ StatementPerm l l') :
    validateEffects l = validateEffects l' := by
  induction h with
  | nil => rfl
  | cons hst hrest ih =>
    unfold validateEffects
    rw [hst.2.1, ih]

theorem validateSids_congr {l l' : List Statement}
    (h : List.Forall₂ StatementPerm l l') :
    ∀ seen, validateSids seen l = validateSids seen l' := by
  induction h with
  | nil => intro seen; rfl
  | cons hst hrest ih =>
    rename_i s t l1 l2
    intro seen
    unfold validateSids
    rw [hst.1]
    cases hs : t.Sid with
    | none => exact ih seen
    | some sid =>
      show (if seen.contains sid = true then
              Except.error (PolicyError.duplicateSid sid)
            else validateSids (sid :: seen) l1) =
          (if seen.contains sid = true then
              Except.error (PolicyError.duplicateSid sid)
            else validateSids (sid :: seen) l2)
      rw [ih (sid :: seen)]

theorem denyLiterals_perm {s t : Statement} (hst : StatementPerm s t) :
    (denyLiterals s).Perm (denyLiterals t) := by
  obtain ⟨-, heff, -, -, -, hprin⟩ := hst
  unfold denyLiterals
  rw [heff]
  cases hE : (t.Effect == "Deny") with
  | false => exact .refl _
  | true =>
    simp only [if_true]
    rcases hp : s.Principal with _ | pp <;> rcases hq : t.Principal with _ | qq
    · exact .refl _
    · rw [hp, hq] at hprin
      rcases qq with v | ⟨aws, fed, svc⟩ <;> exact hprin.elim
    · rw [hp, hq] at hprin
      rcases pp with v | ⟨aws, fed, svc⟩ <;> exact hprin.elim
    · rw [hp, hq] at hprin
      rcases pp with v1 | ⟨aws1, f1, s1⟩ <;> rcases qq with v2 | ⟨aws2, f2, s2⟩
      · have hv : v1 = v2 := hprin
        subst hv
        exact .refl _
      · exact hprin.elim
      · exact hprin.elim
      · exact hprin.1

theorem denied_perm {l l' : List Statement}
    (h : List.Forall₂ StatementPerm l l') :
    ((l.map denyLiterals).flatten).Perm ((l'.map denyLiterals).flatten) := by
  induction h with
  | nil => exact .refl _
  | cons hst hrest ih =>
    simp only [List.map_cons, List.flatten_cons]
    exact (denyLiterals_perm hst).append ih

/-- C7: policies whose statements carry the same AWS-principal identity
strings in a different order evaluate to the same successful result, and the
AllowedPrincipals / AllowedPrincipalAccountIds lists of any successful
result are lexicographically sorted and deduplicated — input order never
affects any output list. -/
theorem c7_thm (p q : PolicyDocument) (o : String) (r : EvaluatedPolicy)
    (hperm : List.Forall₂ StatementPerm p.Statement q.Statement)
    (ho : isValidAccountId o = true)
    (hp : EvaluatePolicy p o = .ok r) :
    EvaluatePolicy q o = .ok r ∧
      r.AllowedPrincipals.Sorted StrLeProp ∧ r.AllowedPrincipals.Nodup ∧
      r.AllowedPrincipalAccountIds.Sorted StrLeProp ∧
      r.AllowedPrincipalAccountIds.Nodup := by
  unfold EvaluatePolicy at hp ⊢
  rw [ho] at hp ⊢
  simp only [Bool.not_true, Bool.false_eq_true, if_false] at hp ⊢
  rw [← validateEffects_congr hperm]
  cases hve : validateEffects p.Statement with
  | error e =>
    rw [hve] at hp
    simp at hp
  | ok u =>
    rw [hve] at hp
    rw [← validateSids_congr hperm []]
    cases hvs : validateSids [] p.Statement with
    | error e =>
      rw [hvs] at hp
      simp at hp
    | ok u2 =>
      rw [hvs] at hp
      have hdperm := denied_perm hperm
      have hca : ((q.Statement.map denyLiterals).flatten).contains "*" =
          ((p.Statement.map denyLiterals).flatten).contains "*" :=
        (contains_eq_of_perm hdperm "*").symm
      rw [hca]
      cases hr : resolveStatements o
          (((p.Statement.map denyLiterals).flatten).contains "*")
          ((p.Statement.map denyLiterals).flatten) 0 p.Statement with
      | error e =>
        rw [hr] at hp
        simp at hp
      | ok ss =>
        rw [hr] at hp
        have hp1 : aggregate ss = r := by simpa using hp
        obtain ⟨ss', hr', hfor⟩ := resolveStatements_perm hdperm hperm hr
        rw [hr']
        constructor
        · show Except.ok (aggregate ss') = Except.ok r
          rw [← hp1, aggregate_perm hfor]
        · rw [← hp1]
          exact ⟨sortUniq_sorted _, sortUniq_nodup _, sortUniq_sorted _,
            sortUniq_nodup _⟩

/-- The ascending-order principal fixture of
`testWhenPrincipalIsMultipleCrossAccountsInAscendingOrder`. -/
def ascPolicy : PolicyDocument :=
  ⟨"2012-10-17",
   [{ Effect := "Allow", Action := some ["sts:AssumeRole"],
      Principal := some (.obj ["444455554444", "arn:aws:iam::555544445555:root"] [] []) }]⟩

/-- The same policy with the AWS principal list in descending order
(`testWhenPrincipalIsMultipleCrossAccountsInDescendingOrder`). -/
def descPolicy : PolicyDocument :=
  ⟨"2012-10-17",
   [{ Effect := "Allow", Action := some ["sts:AssumeRole"],
      Principal := some (.obj ["arn:aws:iam::555544445555:root", "444455554444"] [] []) }]⟩

/-- The result both orderings must produce. -/
def crossAccountResult : EvaluatedPolicy :=
  { AccessLevel := "shared"
    AllowedOrganizationIds := []
    AllowedPrincipals := ["444455554444", "arn:aws:iam::555544445555:root"]
    AllowedPrincipalAccountIds := ["444455554444", "555544445555"]
    AllowedPrincipalFederatedIdentities := []
    AllowedPrincipalServices := []
    IsPublic := false
    PublicAccessLevels := []
    SharedAccessLevels := ["Write"]
    PrivateAccessLevels := []
    PublicStatementIds := []
    SharedStatementIds := ["Statement[1]"] }

/-- C7, witness: the theorem applied to the ascending- and descending-order
fixtures, which therefore return the identical sorted, deduplicated
lists. -/
theorem c7_witness :
    EvaluatePolicy descPolicy "012345678901" = .ok crossAccountResult ∧
      crossAccountResult.AllowedPrincipals.Sorted StrLeProp ∧
      crossAccountResult.AllowedPrincipals.Nodup ∧
      crossAccountResult.AllowedPrincipalAccountIds.Sorted StrLeProp ∧
      crossAccountResult.AllowedPrincipalAccountIds.Nodup :=
  c7_thm ascPolicy descPolicy "012345678901" crossAccountResult
    (by decide) (by decide) (by decide)

end EvalPolicy


